import Mathlib

/-!
Shallow embedding of `src/index.js` of `fmw-utils`: the FileMaker ⇄ web-viewer
call bridge.  The core is

  * the process-wide result registry `__FETCH_RESULTS__` (a JS object mapping
    fetch ids to values, modelled as an association list),
  * the single global inbound dispatcher `window[CALLBACK]` (lines 68–77),
  * `fmFetch` (lines 92–130): it seeds the registry with the sentinel string
    `"started"`, builds and serializes the call envelope, invokes
    `window.FileMaker.PerformScript`, and returns a promise driven by a
    100 ms `setInterval` poller plus a `setTimeout` that raises a timeout flag,
  * the config accessor `getConfig` (lines 190–194).

JavaScript values stored in the registry are modelled by `JSValue`; JSON
parsing (`JSON.parse`) is a host primitive and is modelled as an explicit
parameter `parse : String → Option JSValue` (`none` = the parse threw).  The
promise's single-settlement discipline is modelled by `settle`: the first
settlement wins, later `resolve`/`reject` calls are no-ops.  Timer/interval
scheduling is modelled by traces of `Event`s: `tick` is one invocation of the
interval callback, `timerFire` is the `setTimeout` callback setting the
timeout flag, and `dispatch raw forId` is the host invoking the global
callback.
-/

/-- A JavaScript value as far as the bridge can observe it.  The bridge only
ever compares a stored value against the string sentinel `"started"`
(`x === "started"`, src line 71) and otherwise passes values through opaquely,
so non-primitive JSON values (objects, arrays) are abstracted by an opaque
identity tag `vObj n`: a JS object is never `===` to a string, which is all
that matters here. -/
inductive JSValue where
  | vStr : String → JSValue
  | vNum : Int → JSValue
  | vBool : Bool → JSValue
  | vNull : JSValue
  | vObj : Nat → JSValue
deriving Repr, DecidableEq

/-- The registry `__FETCH_RESULTS__` (src line 67): a JS object keyed by fetch
id.  Keys are unique in a JS object; `ainsert` replaces in place and `aerase`
removes every binding of the key, so duplicate bindings are unobservable. -/
abbrev Registry := List (String × JSValue)

/-- Property read `obj[key]`: `some v` when the key is present, `none` for
JavaScript `undefined`. -/
def alookup {α : Type} : List (String × α) → String → Option α
  | [], _ => none
  | (k, v) :: rest, key => if k = key then some v else alookup rest key

/-- Property write `obj[key] = v`: replace the binding if present, append
otherwise. -/
def ainsert {α : Type} : List (String × α) → String → α → List (String × α)
  | [], key, v => [(key, v)]
  | (k, w) :: rest, key, v =>
      if k = key then (k, v) :: rest else (k, w) :: ainsert rest key v

/-- Property removal `delete obj[key]`. -/
def aerase {α : Type} (m : List (String × α)) (key : String) : List (String × α) :=
  m.filter (fun p => p.1 ≠ key)

/-- The one globally-addressable callback name (src line 5:
`const CALLBACK = "Fmw_Callback"`). -/
def CALLBACK : String := "Fmw_Callback"

/-- The value the dispatcher stores (src lines 72–75): `JSON.parse(results)`
inside `try { … } catch (e) {}` — on parse failure `results` is left as the
raw string. -/
def parseResults (parse : String → Option JSValue) (raw : String) : JSValue :=
  match parse raw with
  | some v => v
  | none => JSValue.vStr raw

/-- The global inbound dispatcher `window[CALLBACK] = (results, fetchId) => …`
(src lines 69–77): read `x = __FETCH_RESULTS__[fetchId]`; only when
`x === "started"` parse the raw result (falling back to the raw string) and
store it; otherwise do nothing. -/
def fmwCallback (parse : String → Option JSValue) (reg : Registry)
    (raw fetchId : String) : Registry :=
  if alookup reg fetchId = some (JSValue.vStr "started") then
    ainsert reg fetchId (parseResults parse raw)
  else reg

/-- How the promise returned by `fmFetch` settled: `resolved r` is
`resolve(result)` where `result` is the registry slot (`none` models
`undefined`, the value read for an absent key); `timedOut` is
`reject(new Error("timeout"))`. -/
inductive Settlement where
  | resolved : Option JSValue → Settlement
  | timedOut : Settlement
deriving Repr, DecidableEq

/-- A promise settles at most once: the first `resolve`/`reject` wins and
every later settlement attempt is a no-op. -/
def settle (cur : Option Settlement) (new : Settlement) : Option Settlement :=
  match cur with
  | some s => some s
  | none => some new

/-- The state relevant to one `fmFetch` call: the shared registry, the
promise's settlement, whether the `setInterval` poller is still installed
(`clearInterval` not yet called), and the `timeOut` flag set by the
`setTimeout` callback (src lines 126–129). -/
structure PollState where
  registry : Registry
  settled : Option Settlement
  intervalActive : Bool
  timeOutFlag : Bool
deriving Repr, DecidableEq

/-- One invocation of the interval callback (src lines 111–124).  The body
reads the slot, then runs two independent `if`s in order: first
`result !== "started"` (clear the interval, delete the slot, `resolve`),
then `timeOut` (clear, delete, `reject`).  Both can run in the same tick;
the promise keeps whichever settlement came first.  A tick on a cleared
interval never happens, hence the guard. -/
def pollTick (fetchId : String) (s : PollState) : PollState :=
  if s.intervalActive then
    let result := alookup s.registry fetchId
    let s1 :=
      if result ≠ some (JSValue.vStr "started") then
        { s with intervalActive := false,
                 registry := aerase s.registry fetchId,
                 settled := settle s.settled (Settlement.resolved result) }
      else s
    if s1.timeOutFlag then
      { s1 with intervalActive := false,
                registry := aerase s1.registry fetchId,
                settled := settle s1.settled Settlement.timedOut }
    else s1
  else s

/-- Events interleaved by the host's single-threaded scheduler while one
`fmFetch` call is outstanding: an interval tick (every 100 ms), the
`setTimeout` callback firing (after the configured delay), or the host
delivering a result to the global callback for some id. -/
inductive Event where
  | tick : Event
  | timerFire : Event
  | dispatch : String → String → Event
deriving Repr, DecidableEq

/-- Effect of one event on the call's state. -/
def stepEvent (parse : String → Option JSValue) (fetchId : String)
    (s : PollState) : Event → PollState
  | Event.tick => pollTick fetchId s
  | Event.timerFire => { s with timeOutFlag := true }
  | Event.dispatch raw forId =>
      { s with registry := fmwCallback parse s.registry raw forId }

/-- Run a trace of events. -/
def run (parse : String → Option JSValue) (fetchId : String)
    (s : PollState) (es : List Event) : PollState :=
  es.foldl (stepEvent parse fetchId) s

/-- The state just after `fmFetch` returns its promise: the registry was
seeded with `__FETCH_RESULTS__[fetchId] = "started"` (src line 94), the
promise is unsettled, the interval is installed and the timeout flag is
down. -/
def initPollState (reg : Registry) (fetchId : String) : PollState :=
  { registry := ainsert reg fetchId (JSValue.vStr "started"),
    settled := none,
    intervalActive := true,
    timeOutFlag := false }

/-- A concrete stand-in for `JSON.parse` that throws on every input.  It
agrees with the real `JSON.parse` on every input used in the concrete
scenarios below (bare words such as `started`, `foo`, `ok` are not valid
JSON, so `JSON.parse` throws on them). -/
def parseNone : String → Option JSValue := fun _ => none

/-- The `options` argument accepted by `fmFetch` (src jsdoc lines 86–89):
`timeOut` (ms, jsdoc default 30000) and `eventType`, each possibly absent
from the object the caller passes. -/
structure FetchOptions where
  timeOut : Option Nat
  eventType : Option String
deriving Repr, DecidableEq

/-- The delay handed to `setTimeout(…, options.timeOut)` (src line 129).
`fmFetch(script, data, options = { timeOut: 30000 })`: the default object is
used only when the caller omits the `options` argument entirely (modelled by
`none`).  When an options object is passed without a `timeOut` field,
`options.timeOut` is `undefined`, and `setTimeout` with an `undefined` delay
runs its callback with delay 0 (ToNumber(undefined) is NaN, clamped to 0). -/
def effectiveDelay (options : Option FetchOptions) : Nat :=
  match options with
  | none => 30000
  | some o =>
      match o.timeOut with
      | some t => t
      | none => 0

/-- The `eventType` the caller passed, if any: `options.eventType`, with
`undefined` for an omitted `options` argument's default object. -/
def optEventType (options : Option FetchOptions) : Option String :=
  match options with
  | none => none
  | some o => o.eventType

/-- A value of the initial-props `Config` mapping: per the data model each
config entry is an object with a `value` string.  Being an object, an entry
is always truthy, so the source's `if (config[key])` test (src line 192)
distinguishes exactly present from absent keys. -/
structure ConfigEntry where
  value : String
deriving Repr, DecidableEq

/-- The `Config` mapping read from the process-wide initial props. -/
abbrev Config := List (String × ConfigEntry)

/-- The process-wide initial-props state (`window.__initialProps__`) as the
bridge reads it: `getConfigs()` returns `props.Config` and `getAddonUUID()`
returns `props.AddonUUID`, either possibly absent. -/
structure InitialProps where
  Config : Option Config
  AddonUUID : Option String
deriving Repr, DecidableEq

/-- The `Meta` part of the call envelope built by `fmFetch`
(src lines 99–105). -/
structure CallMeta where
  Config : Option Config
  AddonUUID : Option String
  FetchId : String
  Callback : String
  EventType : Option String
deriving Repr, DecidableEq

/-- The envelope `param` that `fmFetch` serializes and hands to
`window.FileMaker.PerformScript` (src lines 99–107). -/
structure CallParam where
  Data : JSValue
  Meta : CallMeta
deriving Repr, DecidableEq

/-- Build the envelope exactly as `fmFetch` does (src lines 96–105):
`Meta = { Config, AddonUUID, FetchId: fetchId, Callback: CALLBACK }`, then
`if (options.eventType) param.Meta.EventType = options.eventType` — a JS
truthiness test, under which the empty string is falsy. -/
def buildCallParam (props : InitialProps) (data : JSValue) (fetchId : String)
    (options : Option FetchOptions) : CallParam :=
  { Data := data,
    Meta :=
      { Config := props.Config,
        AddonUUID := props.AddonUUID,
        FetchId := fetchId,
        Callback := CALLBACK,
        EventType :=
          match optEventType options with
          | some s => if s = "" then none else some s
          | none => none } }

/-- The global registration `window[CALLBACK] = (results, fetchId) => …`
(src line 69): the table of globally-addressable callback names the host can
invoke.  Exactly the name `CALLBACK` is bound, to the inbound dispatcher. -/
def windowCallbackTable (parse : String → Option JSValue) :
    String → Option (Registry → String → String → Registry) :=
  fun name =>
    if name = CALLBACK then some (fun reg raw id => fmwCallback parse reg raw id)
    else none

/-- Outcome of the synchronous part of `fmFetch` (src lines 92–130): either
`PerformScript` raised synchronously — the exception propagates to the
caller, with the registry as already mutated and no promise or poller
created — or the call started normally: registry seeded, envelope sent, and
a promise returned whose poller starts from the given state, with the
timeout timer armed for the given delay. -/
inductive FetchStart where
  | threw : Registry → FetchStart
  | ok : Registry → CallParam → PollState → Nat → FetchStart
deriving Repr, DecidableEq

/-- The synchronous prefix of `fmFetch` (src lines 92–130), with the host
primitive's behavior as the parameter `performScriptThrows` (true when
`window.FileMaker.PerformScript` is absent or raises synchronously).  The
registry is seeded with the `"started"` sentinel (line 94) before the
envelope is built (lines 96–105) and before `PerformScript` is invoked
(line 107), so a synchronous throw leaves the sentinel entry behind. -/
def fmFetchStart (performScriptThrows : Bool) (props : InitialProps)
    (reg : Registry) (data : JSValue) (fetchId : String)
    (options : Option FetchOptions) : FetchStart :=
  let reg1 := ainsert reg fetchId (JSValue.vStr "started")
  let param := buildCallParam props data fetchId options
  if performScriptThrows then FetchStart.threw reg1
  else
    FetchStart.ok reg1 param
      { registry := reg1, settled := none,
        intervalActive := true, timeOutFlag := false }
      (effectiveDelay options)

/-- The config accessor `getConfig(key)` (src lines 190–194):
`if (config[key]) return config[key].value;` else throw
`` `there is no config with the key: ${key}` ``.  Config entries are objects
(`ConfigEntry`), hence truthy exactly when present. -/
def getConfig (config : Config) (key : String) : Except String String :=
  match alookup config key with
  | some e => Except.ok e.value
  | none => Except.error ("there is no config with the key: " ++ key)

theorem alookup_ainsert_self {α : Type} (m : List (String × α)) (k : String) (v : α) :
    alookup (ainsert m k v) k = some v := by
  induction m with
  | nil => simp [ainsert, alookup]
  | cons p rest ih =>
      obtain ⟨k1, w⟩ := p
      by_cases h : k1 = k
      · subst h
        simp [ainsert, alookup]
      · simp [ainsert, alookup, h, ih]

theorem alookup_ainsert_ne {α : Type} (m : List (String × α)) (k k2 : String) (v : α)
    (h : k2 ≠ k) : alookup (ainsert m k v) k2 = alookup m k2 := by
  have hks : k ≠ k2 := fun hh => h hh.symm
  induction m with
  | nil => simp [ainsert, alookup, hks]
  | cons p rest ih =>
      obtain ⟨k1, w⟩ := p
      by_cases h1 : k1 = k
      · subst h1
        simp [ainsert, alookup, hks]
      · simp [ainsert, alookup, h1, ih]

theorem alookup_aerase_self {α : Type} (m : List (String × α)) (k : String) :
    alookup (aerase m k) k = none := by
  induction m with
  | nil => rfl
  | cons p rest ih =>
      obtain ⟨k1, w⟩ := p
      by_cases h : k1 = k
      · subst h
        simpa [aerase, List.filter_cons] using ih
      · simpa [aerase, alookup, List.filter_cons, h] using ih

theorem alookup_aerase_ne {α : Type} (m : List (String × α)) (k k2 : String)
    (h : k2 ≠ k) : alookup (aerase m k) k2 = alookup m k2 := by
  induction m with
  | nil => rfl
  | cons p rest ih =>
      obtain ⟨k1, w⟩ := p
      have hks : ¬ (k = k2) := fun hh => h hh.symm
      by_cases h1 : k1 = k
      · simpa [aerase, alookup, List.filter_cons, h1, hks] using ih
      · by_cases h2 : k1 = k2
        · simp [aerase, alookup, List.filter_cons, h1, h2, h]
        · simpa [aerase, alookup, List.filter_cons, h1, h2] using ih

theorem fmwCallback_alookup_ne (parse : String → Option JSValue) (reg : Registry)
    (raw forId fid : String) (h : forId ≠ fid) :
    alookup (fmwCallback parse reg raw forId) fid = alookup reg fid := by
  unfold fmwCallback
  split
  · exact alookup_ainsert_ne reg forId fid _ (fun hh => h hh.symm)
  · rfl

theorem fmwCallback_isSome (parse : String → Option JSValue) (reg : Registry)
    (raw forId k : String) :
    (alookup (fmwCallback parse reg raw forId) k).isSome = (alookup reg k).isSome := by
  unfold fmwCallback
  split
  case isTrue hp =>
    by_cases hk : k = forId
    · subst hk
      rw [alookup_ainsert_self, hp]
      rfl
    · rw [alookup_ainsert_ne reg forId k _ hk]
  case isFalse hp => rfl

theorem settle_some (s : Settlement) (n : Settlement) :
    settle (some s) n = some s := rfl

theorem settle_isNone (c : Option Settlement) (n : Settlement) :
    (settle c n).isNone = false := by
  cases c <;> rfl

theorem run_append (parse : String → Option JSValue) (fid : String) (s : PollState)
    (a b : List Event) : run parse fid s (a ++ b) = run parse fid (run parse fid s a) b := by
  simp [run, List.foldl_append]

theorem run_cons (parse : String → Option JSValue) (fid : String) (s : PollState)
    (e : Event) (es : List Event) :
    run parse fid s (e :: es) = run parse fid (stepEvent parse fid s e) es := rfl

/-- One step preserves the correspondence between settlement and registry
occupancy: the slot for the call is present exactly while the promise is
unsettled. -/
theorem stepEvent_registry_settled (parse : String → Option JSValue) (fid : String)
    (s : PollState) (e : Event)
    (h : (alookup s.registry fid).isSome = s.settled.isNone) :
    (alookup (stepEvent parse fid s e).registry fid).isSome
      = (stepEvent parse fid s e).settled.isNone := by
  cases e with
  | timerFire => simpa [stepEvent] using h
  | dispatch raw forId =>
      simp only [stepEvent]
      rw [fmwCallback_isSome]
      exact h
  | tick =>
      simp only [stepEvent]
      by_cases ha : s.intervalActive
      · by_cases hr : alookup s.registry fid = some (JSValue.vStr "started")
        · by_cases hb : s.timeOutFlag
          · simp [pollTick, ha, hr, hb, alookup_aerase_self, settle_isNone]
          · simpa [pollTick, ha, hr, hb] using h
        · by_cases hb : s.timeOutFlag
          · simp [pollTick, ha, hr, hb, alookup_aerase_self, settle_isNone]
          · simp [pollTick, ha, hr, hb, alookup_aerase_self, settle_isNone]
      · simpa [pollTick, ha] using h

/-- Trace version of `stepEvent_registry_settled`. -/
theorem run_registry_settled (parse : String → Option JSValue) (fid : String)
    (es : List Event) (s : PollState)
    (h : (alookup s.registry fid).isSome = s.settled.isNone) :
    (alookup (run parse fid s es).registry fid).isSome
      = (run parse fid s es).settled.isNone := by
  induction es generalizing s with
  | nil => exact h
  | cons e rest ih => exact ih _ (stepEvent_registry_settled parse fid s e h)

/-- The call is still outstanding: sentinel in the slot, promise unsettled,
interval installed. -/
def PendingState (fid : String) (s : PollState) : Prop :=
  alookup s.registry fid = some (JSValue.vStr "started")
  ∧ s.settled = none ∧ s.intervalActive = true

/-- The call ended in timeout: promise rejected and slot removed. -/
def TimedOutState (fid : String) (s : PollState) : Prop :=
  s.settled = some Settlement.timedOut ∧ alookup s.registry fid = none

/-- A tick on a pending call with the timeout flag down changes nothing. -/
theorem pollTick_pending_noflag (fid : String) (s : PollState)
    (hr : alookup s.registry fid = some (JSValue.vStr "started"))
    (hf : s.timeOutFlag = false) : pollTick fid s = s := by
  by_cases ha : s.intervalActive
  · simp [pollTick, ha, hr, hf]
  · simp [pollTick, ha]

/-- After the timeout already settled the call, every further event — ticks,
more timer fires, and in particular late dispatches for the very same id —
leaves the settlement and the (absent) registry slot untouched. -/
theorem timedOutState_step (parse : String → Option JSValue) (fid : String)
    (s : PollState) (e : Event) (h : TimedOutState fid s) :
    TimedOutState fid (stepEvent parse fid s e) := by
  obtain ⟨hs, hr⟩ := h
  cases e with
  | timerFire => exact ⟨hs, hr⟩
  | dispatch raw forId =>
      refine ⟨hs, ?_⟩
      by_cases hf : forId = fid
      · subst hf
        simp only [stepEvent]
        unfold fmwCallback
        rw [hr]
        simpa using hr
      · simp only [stepEvent]
        rw [fmwCallback_alookup_ne parse s.registry raw forId fid hf]
        exact hr
  | tick =>
      by_cases ha : s.intervalActive
      · by_cases hb : s.timeOutFlag
        · exact ⟨by simp [stepEvent, pollTick, ha, hr, hs, hb, settle_some],
            by simp [stepEvent, pollTick, ha, hr, hs, hb, alookup_aerase_self]⟩
        · exact ⟨by simp [stepEvent, pollTick, ha, hr, hs, hb, settle_some],
            by simp [stepEvent, pollTick, ha, hr, hb, alookup_aerase_self]⟩
      · exact ⟨by simp [stepEvent, pollTick, ha, hs],
          by simp [stepEvent, pollTick, ha, hr]⟩

/-- Trace version of `timedOutState_step`. -/
theorem timedOutState_run (parse : String → Option JSValue) (fid : String)
    (es : List Event) (s : PollState) (h : TimedOutState fid s) :
    TimedOutState fid (run parse fid s es) := by
  induction es generalizing s with
  | nil => exact h
  | cons e rest ih => exact ih _ (timedOutState_step parse fid s e h)

/-- While the timeout flag is down and no dispatch for this call arrives
(and the timer has not fired), the call stays pending: ticks are no-ops and
dispatches for other ids do not touch this slot. -/
theorem pendingState_run_quiet (parse : String → Option JSValue) (fid : String)
    (es : List Event) (s : PollState)
    (h : PendingState fid s) (hf : s.timeOutFlag = false)
    (hd : ∀ raw, Event.dispatch raw fid ∉ es) (ht : Event.timerFire ∉ es) :
    PendingState fid (run parse fid s es) ∧ (run parse fid s es).timeOutFlag = false := by
  induction es generalizing s with
  | nil => exact ⟨h, hf⟩
  | cons e rest ih =>
      have hd1 : ∀ raw, Event.dispatch raw fid ∉ rest :=
        fun raw hm => hd raw (List.mem_cons_of_mem _ hm)
      have ht1 : Event.timerFire ∉ rest := fun hm => ht (List.mem_cons_of_mem _ hm)
      obtain ⟨hr, hs, ha⟩ := h
      rw [run_cons]
      cases e with
      | tick =>
          have heq : stepEvent parse fid s Event.tick = s := pollTick_pending_noflag fid s hr hf
          rw [heq]
          exact ih s ⟨hr, hs, ha⟩ hf hd1 ht1
      | timerFire => exact absurd (List.mem_cons_self _ _) ht
      | dispatch raw forId =>
          have hne : forId ≠ fid := by
            intro hEq
            subst hEq
            exact hd raw (List.mem_cons_self _ _)
          refine ih _ ⟨?_, hs, ha⟩ hf hd1 ht1
          simp only [stepEvent]
          rw [fmwCallback_alookup_ne parse s.registry raw forId fid hne]
          exact hr

/-- After the timer has fired, as long as no dispatch for this call arrives,
the call is either still pending with the flag up or already timed out; a
tick moves the first case into the second, and nothing leaves the second. -/
theorem pendingState_run_flagged (parse : String → Option JSValue) (fid : String)
    (es : List Event) (s : PollState)
    (h : (PendingState fid s ∧ s.timeOutFlag = true) ∨ TimedOutState fid s)
    (hd : ∀ raw, Event.dispatch raw fid ∉ es) :
    (PendingState fid (run parse fid s es) ∧ (run parse fid s es).timeOutFlag = true)
      ∨ TimedOutState fid (run parse fid s es) := by
  induction es generalizing s with
  | nil => exact h
  | cons e rest ih =>
      have hd1 : ∀ raw, Event.dispatch raw fid ∉ rest :=
        fun raw hm => hd raw (List.mem_cons_of_mem _ hm)
      rw [run_cons]
      refine ih _ ?_ hd1
      rcases h with ⟨⟨hr, hs, ha⟩, hf⟩ | hto
      · cases e with
        | tick =>
            right
            constructor
            · simp [stepEvent, pollTick, ha, hr, hs, hf, settle]
            · simp [stepEvent, pollTick, ha, hr, hf, alookup_aerase_self]
        | timerFire => exact Or.inl ⟨⟨hr, hs, ha⟩, rfl⟩
        | dispatch raw forId =>
            have hne : forId ≠ fid := by
              intro hEq
              subst hEq
              exact hd raw (List.mem_cons_self _ _)
            left
            refine ⟨⟨?_, hs, ha⟩, hf⟩
            simp only [stepEvent]
            rw [fmwCallback_alookup_ne parse s.registry raw forId fid hne]
            exact hr
      · exact Or.inr (timedOutState_step parse fid s e hto)

/-- A tick taken when the call is pending with the flag up, or already timed
out, lands in the timed-out state. -/
theorem tick_flagged_timedOut (parse : String → Option JSValue) (fid : String)
    (s : PollState)
    (h : (PendingState fid s ∧ s.timeOutFlag = true) ∨ TimedOutState fid s) :
    TimedOutState fid (stepEvent parse fid s Event.tick) := by
  rcases h with ⟨⟨hr, hs, ha⟩, hf⟩ | hto
  · constructor
    · simp [stepEvent, pollTick, ha, hr, hs, hf, settle]
    · simp [stepEvent, pollTick, ha, hr, hf, alookup_aerase_self]
  · exact timedOutState_step parse fid s Event.tick hto

/-- C1 (counterexample): the dispatcher is NOT always a no-op on a second
inbound result for the same id.  If the first raw result is the string
`started` (invalid JSON, so it is stored raw), the stored payload equals the
`Pending` sentinel, and a second dispatch (raw `foo`) overwrites it: the
first payload is not left in place. -/
theorem fmw_callback_second_dispatch_overwrites :
    fmwCallback parseNone
        (fmwCallback parseNone [("c1", JSValue.vStr "started")] "started" "c1") "foo" "c1"
      ≠ fmwCallback parseNone [("c1", JSValue.vStr "started")] "started" "c1" := by
  decide

/-- C1 (amended): the dispatcher only writes a slot currently equal to the
`Pending` sentinel `"started"`; if the id is absent or the slot is not the
sentinel, the dispatch leaves the registry completely unchanged.
Consequently a second dispatch for the same id is a no-op provided the first
dispatch's stored payload differs from the sentinel string `"started"`. -/
theorem fmw_callback_pending_transition_only (parse : String → Option JSValue)
    (reg : Registry) (raw1 raw2 id : String) :
    (alookup reg id ≠ some (JSValue.vStr "started") → fmwCallback parse reg raw1 id = reg)
    ∧ (parseResults parse raw1 ≠ JSValue.vStr "started" →
        fmwCallback parse (fmwCallback parse reg raw1 id) raw2 id
          = fmwCallback parse reg raw1 id) := by
  constructor
  · intro h
    unfold fmwCallback
    rw [if_neg h]
  · intro hp
    by_cases h : alookup reg id = some (JSValue.vStr "started")
    · have h1 : fmwCallback parse reg raw1 id = ainsert reg id (parseResults parse raw1) := by
        unfold fmwCallback
        rw [if_pos h]
      have hcond : ¬ (alookup (ainsert reg id (parseResults parse raw1)) id
          = some (JSValue.vStr "started")) := by
        rw [alookup_ainsert_self]
        intro hc
        exact hp (Option.some.inj hc)
      rw [h1]
      unfold fmwCallback
      rw [if_neg hcond]
    · have h1 : fmwCallback parse reg raw1 id = reg := by
        unfold fmwCallback
        rw [if_neg h]
      rw [h1]
      unfold fmwCallback
      rw [if_neg h]

/-- Witness for `fmw_callback_pending_transition_only` at concrete inputs:
a dispatch for an unknown id changes nothing, and after a first dispatch
storing `"ok"` a second dispatch is a no-op. -/
theorem fmw_callback_pending_transition_only_witness :
    (fmwCallback parseNone [] "ok" "b" = [])
    ∧ (fmwCallback parseNone
          (fmwCallback parseNone [("a", JSValue.vStr "started")] "ok" "a") "x" "a"
        = fmwCallback parseNone [("a", JSValue.vStr "started")] "ok" "a") :=
  ⟨(fmw_callback_pending_transition_only parseNone [] "ok" "x" "b").1 (by decide),
   (fmw_callback_pending_transition_only parseNone
      [("a", JSValue.vStr "started")] "ok" "x" "a").2 (by decide)⟩

/-- C2: a call that never receives a dispatch for its id settles exactly once,
as a timeout rejection, and afterwards the registry no longer contains the
id.  The trace is: events before the timer fires (no dispatch for this id,
timer not yet fired), the `setTimeout` callback raising the flag after the
configured delay, further events (no dispatch for this id), the next poll
tick — which rejects with the timeout error and deletes the slot — and then
arbitrary further events, including late dispatches for the same id, under
which the rejection and the cleanup are stable (the promise settles only
once, exclusively with the timeout). -/
theorem fmFetch_timeout_settles_and_cleans (parse : String → Option JSValue)
    (reg : Registry) (fetchId : String) (es1 es2 es3 : List Event)
    (hd1 : ∀ raw, Event.dispatch raw fetchId ∉ es1)
    (ht1 : Event.timerFire ∉ es1)
    (hd2 : ∀ raw, Event.dispatch raw fetchId ∉ es2) :
    (run parse fetchId (initPollState reg fetchId)
        (es1 ++ Event.timerFire :: es2 ++ Event.tick :: es3)).settled
      = some Settlement.timedOut
    ∧ alookup (run parse fetchId (initPollState reg fetchId)
        (es1 ++ Event.timerFire :: es2 ++ Event.tick :: es3)).registry fetchId = none := by
  have hinit : PendingState fetchId (initPollState reg fetchId) :=
    ⟨alookup_ainsert_self reg fetchId _, rfl, rfl⟩
  have h1 := pendingState_run_quiet parse fetchId es1 _ hinit rfl hd1 ht1
  rw [run_append, run_cons]
  have hp2 : PendingState fetchId
        (stepEvent parse fetchId (run parse fetchId (initPollState reg fetchId) es1)
          Event.timerFire)
      ∧ (stepEvent parse fetchId (run parse fetchId (initPollState reg fetchId) es1)
          Event.timerFire).timeOutFlag = true := by
    obtain ⟨⟨hr, hs, ha⟩, hf⟩ := h1
    exact ⟨⟨hr, hs, ha⟩, rfl⟩
  rw [run_append, run_cons]
  have h3 := pendingState_run_flagged parse fetchId es2 _ (Or.inl hp2) hd2
  have h4 := tick_flagged_timedOut parse fetchId _ h3
  have h5 := timedOutState_run parse fetchId es3 _ h4
  exact ⟨h5.1, h5.2⟩

/-- Witness for `fmFetch_timeout_settles_and_cleans`: the minimal trace
timer-fire then tick, from an empty registry. -/
theorem fmFetch_timeout_settles_and_cleans_witness :
    (run parseNone "w2" (initPollState [] "w2")
        ([] ++ Event.timerFire :: [] ++ Event.tick :: [])).settled
      = some Settlement.timedOut
    ∧ alookup (run parseNone "w2" (initPollState [] "w2")
        ([] ++ Event.timerFire :: [] ++ Event.tick :: [])).registry "w2" = none :=
  fmFetch_timeout_settles_and_cleans parseNone [] "w2" [] [] []
    (fun _ => List.not_mem_nil _) (List.not_mem_nil _)
    (fun _ => List.not_mem_nil _)

/-- C3 (counterexample): an unparseable raw result does NOT always let the
call resolve.  The raw string `started` is invalid JSON (`JSON.parse`
throws), it is stored unchanged — but it equals the `Pending` sentinel, so
the poller keeps waiting and the call settles as timeout instead of
resolving. -/
theorem malformed_sentinel_payload_times_out :
    parseNone "started" = none
    ∧ (run parseNone "c3" (initPollState [] "c3")
        [Event.dispatch "started" "c3", Event.timerFire, Event.tick]).settled
      = some Settlement.timedOut :=
  ⟨rfl, by decide⟩

/-- C3 (amended): dispatching a raw result that cannot be parsed to a
pending call stores the raw string unchanged as the payload, and — provided
the raw string differs from the sentinel `"started"` — the next poll tick
resolves the call successfully with that raw string, even if the timeout
flag is already up; the malformed payload by itself never fails the call. -/
theorem malformed_payload_fallback_resolves (parse : String → Option JSValue)
    (reg : Registry) (id raw : String) (flag : Bool)
    (hpend : alookup reg id = some (JSValue.vStr "started"))
    (hparse : parse raw = none) (hraw : raw ≠ "started") :
    alookup (fmwCallback parse reg raw id) id = some (JSValue.vStr raw)
    ∧ (pollTick id ({ registry := fmwCallback parse reg raw id, settled := none,
                      intervalActive := true, timeOutFlag := flag })).settled
      = some (Settlement.resolved (some (JSValue.vStr raw))) := by
  have hpr : parseResults parse raw = JSValue.vStr raw := by
    unfold parseResults
    rw [hparse]
  have hstore : alookup (fmwCallback parse reg raw id) id = some (JSValue.vStr raw) := by
    unfold fmwCallback
    rw [if_pos hpend, alookup_ainsert_self, hpr]
  refine ⟨hstore, ?_⟩
  have hne : ¬ (alookup (fmwCallback parse reg raw id) id
      = some (JSValue.vStr "started")) := by
    rw [hstore]
    intro hc
    exact hraw (JSValue.vStr.inj (Option.some.inj hc))
  cases flag
  · simp [pollTick, hstore, hne, hraw, settle]
  · simp [pollTick, hstore, hne, hraw, settle]

/-- Witness for `malformed_payload_fallback_resolves`: raw result `boom`
dispatched to the pending call `m`, with the timeout flag already up. -/
theorem malformed_payload_fallback_resolves_witness :
    alookup (fmwCallback parseNone [("m", JSValue.vStr "started")] "boom" "m") "m"
        = some (JSValue.vStr "boom")
    ∧ (pollTick "m" ({ registry := fmwCallback parseNone [("m", JSValue.vStr "started")] "boom" "m",
                       settled := none, intervalActive := true, timeOutFlag := true })).settled
      = some (Settlement.resolved (some (JSValue.vStr "boom"))) :=
  malformed_payload_fallback_resolves parseNone [("m", JSValue.vStr "started")]
    "m" "boom" true (by decide) rfl (by decide)

/-- C4: the registry slot for a call exists, seeded with the `Pending`
sentinel, from the moment `fmFetch` issues the call, and from then on —
under every interleaving of ticks, timer fires and dispatches — the slot is
present exactly while the promise is unsettled: the poller deletes it in the
very tick in which it observes resolution or timeout, so after settlement on
either path the registry no longer contains the id. -/
theorem registry_entry_present_iff_unsettled (parse : String → Option JSValue)
    (reg : Registry) (fetchId : String) (es : List Event) :
    alookup (initPollState reg fetchId).registry fetchId = some (JSValue.vStr "started")
    ∧ (alookup (run parse fetchId (initPollState reg fetchId) es).registry fetchId).isSome
        = (run parse fetchId (initPollState reg fetchId) es).settled.isNone := by
  constructor
  · exact alookup_ainsert_self reg fetchId _
  · apply run_registry_settled
    simp [initPollState, alookup_ainsert_self]

/-- C5: within a single poll tick the source checks `result !== "started"`
before the `timeOut` flag, and a promise keeps its first settlement, so when
a result has arrived and the timeout has also expired by the same tick, the
call resolves successfully with the payload rather than rejecting with the
timeout error. -/
theorem pollTick_resolution_beats_timeout (fid : String) (s : PollState) (v : JSValue)
    (hset : s.settled = none) (hact : s.intervalActive = true)
    (hl : alookup s.registry fid = some v) (hv : v ≠ JSValue.vStr "started")
    (hflag : s.timeOutFlag = true) :
    (pollTick fid s).settled = some (Settlement.resolved (some v)) := by
  simp [pollTick, hact, hl, hv, hset, hflag, settle]

/-- Witness for `pollTick_resolution_beats_timeout`: payload `"ok"` present
and the timeout flag up in the same tick. -/
theorem pollTick_resolution_beats_timeout_witness :
    (pollTick "w5" ({ registry := [("w5", JSValue.vStr "ok")], settled := none,
                      intervalActive := true, timeOutFlag := true })).settled
      = some (Settlement.resolved (some (JSValue.vStr "ok"))) :=
  pollTick_resolution_beats_timeout "w5"
    ({ registry := [("w5", JSValue.vStr "ok")], settled := none,
       intervalActive := true, timeOutFlag := true })
    (JSValue.vStr "ok") rfl rfl (by decide) (by decide) rfl

/-- C6: the 30000 ms default timeout only takes effect when the caller omits
the `options` argument entirely, because the default is on the whole
parameter (`options = { timeOut: 30000 }`), not on the field.  An options
object without a `timeOut` field — e.g. `{ eventType: "go" }`, the failing
input — makes `setTimeout(…, options.timeOut)` receive `undefined`, i.e. a
0 ms delay, so the timeout flag is raised immediately and the first poll
tick rejects the call, contradicting the code's own jsdoc
(`[options.timeOut=30000] timeout default is 30000 ms`, src line 88). -/
theorem timeout_default_requires_omitted_options :
    effectiveDelay none = 30000
    ∧ effectiveDelay (some { timeOut := none, eventType := some "go" }) = 0 :=
  ⟨rfl, rfl⟩

/-- C7 (counterexample): the event-type metadata field is NOT included
whenever the caller provided one: `if (options.eventType)` is a truthiness
test, so a provided empty-string event type is dropped from the envelope. -/
theorem empty_event_type_not_included :
    optEventType (some { timeOut := some 30000, eventType := some "" }) = some ""
    ∧ (buildCallParam { Config := none, AddonUUID := none } JSValue.vNull "id7"
        (some { timeOut := some 30000, eventType := some "" })).Meta.EventType = none :=
  ⟨rfl, by decide⟩

/-- C7 (amended): the envelope handed to `window.FileMaker.PerformScript`
carries the caller's payload in `Data` and a `Meta` object holding the
`Config` and `AddonUUID` read from the process-wide initial props, the fresh
fetch id, and the name `CALLBACK` — precisely the name under which the
global inbound dispatcher is registered, so the host can deliver results to
it; `EventType` is included in the metadata if and only if the caller
provided a non-empty event type (a provided empty string is falsy and is
dropped). -/
theorem call_envelope_fields (parse : String → Option JSValue) (props : InitialProps)
    (data : JSValue) (fetchId : String) (options : Option FetchOptions) :
    (buildCallParam props data fetchId options).Data = data
    ∧ (buildCallParam props data fetchId options).Meta.Config = props.Config
    ∧ (buildCallParam props data fetchId options).Meta.AddonUUID = props.AddonUUID
    ∧ (buildCallParam props data fetchId options).Meta.FetchId = fetchId
    ∧ (buildCallParam props data fetchId options).Meta.Callback = CALLBACK
    ∧ windowCallbackTable parse (buildCallParam props data fetchId options).Meta.Callback
        = some (fun reg raw id => fmwCallback parse reg raw id)
    ∧ (∀ s : String, (buildCallParam props data fetchId options).Meta.EventType = some s
        ↔ (optEventType options = some s ∧ s ≠ "")) := by
  refine ⟨rfl, rfl, rfl, rfl, rfl, ?_, ?_⟩
  · unfold windowCallbackTable buildCallParam
    simp
  · intro s
    cases options with
    | none => simp [buildCallParam, optEventType]
    | some o =>
        cases ho : o.eventType with
        | none => simp [buildCallParam, optEventType, ho]
        | some t =>
            by_cases ht : t = ""
            · subst ht
              simp [buildCallParam, optEventType, ho]
              exact fun hs => hs.symm
            · simp [buildCallParam, optEventType, ho, ht]
              intro hs
              rw [← hs]
              exact ht

/-- Witness for `call_envelope_fields`: concrete props, payload, id and a
provided non-empty event type, whose inclusion follows from the iff. -/
theorem call_envelope_fields_witness :
    (buildCallParam { Config := some [("c", { value := "v" })], AddonUUID := some "A1" }
        (JSValue.vStr "payload") "f7" (some { timeOut := some 5, eventType := some "go" })).Meta.Callback
      = CALLBACK
    ∧ (buildCallParam { Config := some [("c", { value := "v" })], AddonUUID := some "A1" }
        (JSValue.vStr "payload") "f7" (some { timeOut := some 5, eventType := some "go" })).Meta.EventType
      = some "go" :=
  ⟨(call_envelope_fields parseNone
      { Config := some [("c", { value := "v" })], AddonUUID := some "A1" }
      (JSValue.vStr "payload") "f7" (some { timeOut := some 5, eventType := some "go" })).2.2.2.2.1,
   ((call_envelope_fields parseNone
      { Config := some [("c", { value := "v" })], AddonUUID := some "A1" }
      (JSValue.vStr "payload") "f7" (some { timeOut := some 5, eventType := some "go" })).2.2.2.2.2.2
      "go").mpr ⟨rfl, by decide⟩⟩

/-- C8: `getConfig` returns the `value` string of the entry stored under the
key when the key is present in the configuration, and fails with the
missing-config error when the key is absent. -/
theorem getConfig_present_or_missing (config : Config) (key : String) :
    (∀ e : ConfigEntry, alookup config key = some e →
        getConfig config key = Except.ok e.value)
    ∧ (alookup config key = none →
        getConfig config key = Except.error ("there is no config with the key: " ++ key)) := by
  constructor
  · intro e he
    unfold getConfig
    rw [he]
  · intro hn
    unfold getConfig
    rw [hn]

/-- Witness for `getConfig_present_or_missing`: a present key yields its
stored value, an absent key yields the missing-config error. -/
theorem getConfig_present_or_missing_witness :
    getConfig [("color", { value := "red" })] "color" = Except.ok "red"
    ∧ getConfig [] "size" = Except.error ("there is no config with the key: " ++ "size") :=
  ⟨(getConfig_present_or_missing [("color", { value := "red" })] "color").1
      { value := "red" } (by decide),
   (getConfig_present_or_missing [] "size").2 rfl⟩

/-- C9: a dispatched result can be indistinguishable from the `Pending`
sentinel.  The raw string `started` is invalid JSON (`parseNone` mirrors
`JSON.parse` throwing on it), so the dispatcher stores it raw — a value
equal to the sentinel: the registry is left literally unchanged, the next
poll tick still treats the call as pending (no settlement, poller still
active), a subsequent dispatch for the same id is still accepted and
overwrites, and absent one the call settles as timeout although a result
was delivered. -/
theorem started_result_indistinguishable_from_pending :
    parseNone "started" = none
    ∧ fmwCallback parseNone [("c9", JSValue.vStr "started")] "started" "c9"
        = [("c9", JSValue.vStr "started")]
    ∧ (run parseNone "c9" (initPollState [] "c9")
        [Event.dispatch "started" "c9", Event.tick]).settled = none
    ∧ (run parseNone "c9" (initPollState [] "c9")
        [Event.dispatch "started" "c9", Event.tick]).intervalActive = true
    ∧ alookup (fmwCallback parseNone
        (fmwCallback parseNone [("c9", JSValue.vStr "started")] "started" "c9") "ok" "c9") "c9"
        = some (JSValue.vStr "ok")
    ∧ (run parseNone "c9" (initPollState [] "c9")
        [Event.dispatch "started" "c9", Event.timerFire, Event.tick]).settled
        = some Settlement.timedOut := by
  decide

/-- C10: when `window.FileMaker.PerformScript` is absent or raises
synchronously, `fmFetch` propagates the exception to its caller, but only
after line 94 already registered the fresh id as `Pending`: the thrown
outcome carries the registry with the sentinel entry in place, no promise or
poller is created that could ever delete it, and the dispatcher never
removes entries (it can only overwrite a pending slot), so the error path
leaves the `Pending` entry in the registry for good. -/
theorem perform_script_throw_leaks_pending_entry (props : InitialProps)
    (reg : Registry) (data : JSValue) (fetchId : String)
    (options : Option FetchOptions) (parse : String → Option JSValue)
    (reg2 : Registry) (raw forId k : String) :
    fmFetchStart true props reg data fetchId options
      = FetchStart.threw (ainsert reg fetchId (JSValue.vStr "started"))
    ∧ alookup (ainsert reg fetchId (JSValue.vStr "started")) fetchId
        = some (JSValue.vStr "started")
    ∧ (alookup (fmwCallback parse reg2 raw forId) k).isSome = (alookup reg2 k).isSome :=
  ⟨rfl, alookup_ainsert_self reg fetchId _, fmwCallback_isSome parse reg2 raw forId k⟩
